import Mathlib

/-!
Shallow embedding of the ChatGPT export-archive parser
(`src/lib/utils/parseChatGPTZip.ts`, bundled in `src/lib/actions/tags.ts`):
`parseChatGPTZip` and its helpers `normalizeConversation`, `normalizeMessage`,
`isAttachmentFile`, `inferContentType`, `getBasename`,
`generateIdFromFilename`.

Modelling conventions:
- JavaScript values produced by `JSON.parse` are modelled by the inductive
  `Json`; JS truthiness and the `typeof x === 'object'` test are explicit
  functions (`jsTruthy`, `Json.isObjectType`; in JS, arrays and `null` have
  typeof 'object').
- JS strings are Lean `String`s; the string methods used by the source
  (`toLowerCase`, `endsWith`, `startsWith`, `includes`, `split`, `trim`,
  one-occurrence `replace`) are defined structurally over `List Char`
  (ASCII-level, which covers every literal the source compares against).
- The JSZip library is opaque: a `Buffer` carries its byte length and the
  outcome of `JSZip.loadAsync` on those bytes (either a thrown error message
  or the list of entries).  `JSON.parse(await file.async('text'))` on an
  entry is carried as `textJson : Option Json` (`none` when decoding or
  parsing throws); `await file.async('nodebuffer')` is `bytes : List Nat`.
- The wall clock read by `new Date().toISOString()` is passed as an explicit
  `now : String` argument.
- Entries are processed in list order; the source fans them out with
  `Promise.all`, but each entry is processed independently and no claim here
  concerns cross-entry ordering.
-/

namespace ChatGPTZip

/-- JSON value tree, the result of a successful `JSON.parse`. -/
inductive Json where
  | null : Json
  | bool (b : Bool) : Json
  | num (n : Int) : Json
  | str (s : String) : Json
  | arr (elems : List Json) : Json
  | obj (fields : List (String × Json)) : Json

/-- JS truthiness of a value: `undefined`/`null`/`false`/`0`/empty string are
falsy; every array and object is truthy. -/
def jsTruthy : Json → Bool
  | .null => false
  | .bool b => b
  | .num n => n != 0
  | .str s => s != ""
  | .arr _ => true
  | .obj _ => true

/-- Truthiness of a possibly-`undefined` value (`none` models `undefined`). -/
def truthyO : Option Json → Bool
  | none => false
  | some v => jsTruthy v

/-- JS `typeof v === 'object'`: true for objects, arrays and `null`. -/
def Json.isObjectType : Json → Bool
  | .null => true
  | .arr _ => true
  | .obj _ => true
  | _ => false

/-- First-match association lookup.  Objects built by `JSON.parse` have
unique keys (later duplicates overwrite earlier ones at parse time). -/
def lookupField : List (String × Json) → String → Option Json
  | [], _ => none
  | (k, v) :: rest, key => if k = key then some v else lookupField rest key

/-- JS property access `v[key]`: `none` models `undefined` (also for every
non-object receiver used by the source). -/
def Json.getField : Json → String → Option Json
  | .obj fields, key => lookupField fields key
  | _, _ => none

/-- JS `a || b` where `a` may be `undefined` and `b` is a present value. -/
def jsOr (a : Option Json) (b : Json) : Json :=
  match a with
  | some v => if jsTruthy v then v else b
  | none => b

/-- JS `a || b` where both sides may be `undefined`. -/
def jsOrO (a b : Option Json) : Option Json :=
  match a with
  | some v => if jsTruthy v then some v else b
  | none => b

/-- String-typed projection: `some s` exactly for string values. -/
def Json.asString : Json → Option String
  | .str s => some s
  | _ => none

/- JS string primitives, ASCII-level, structural over `List Char`. -/

/-- ASCII lowercasing, the fragment of `String.prototype.toLowerCase` the
source relies on (every compared literal is ASCII). -/
def jsToLower (s : String) : String :=
  ⟨s.data.map Char.toLower⟩

/-- JS `s.endsWith(pat)`. -/
def jsEndsWith (s pat : String) : Bool :=
  pat.data.isSuffixOf s.data

/-- JS `s.startsWith(pat)`. -/
def jsStartsWith (s pat : String) : Bool :=
  pat.data.isPrefixOf s.data

/-- Infix test on character lists, structural recursion on the haystack. -/
def hasInfixList (pat : List Char) : List Char → Bool
  | [] => pat.isEmpty
  | a :: t => pat.isPrefixOf (a :: t) || hasInfixList pat t

/-- JS `s.includes(pat)`. -/
def jsIncludes (s pat : String) : Bool :=
  hasInfixList pat.data s.data

/-- JS `s.split(sep)` for a one-character separator; always non-empty. -/
def splitOnChar (sep : Char) : List Char → List (List Char)
  | [] => [[]]
  | a :: t =>
    if a = sep then [] :: splitOnChar sep t
    else
      match splitOnChar sep t with
      | [] => [[a]]
      | h :: r => (a :: h) :: r

/-- JS `s.split(sep).pop()`, total because `split` is never empty. -/
def lastSegment (sep : Char) (s : String) : String :=
  ⟨((splitOnChar sep s.data).getLast?).getD []⟩

/-- Whitespace trimming on character lists: drop a whitespace run from the
front, then one from the back. -/
def trimChars (l : List Char) : List Char :=
  (((l.dropWhile Char.isWhitespace).reverse.dropWhile Char.isWhitespace)).reverse

/-- JS `s.trim()` (ASCII whitespace, which covers the source's inputs). -/
def jsTrim (s : String) : String :=
  ⟨trimChars s.data⟩

/-- JS `s.replace(pat, '')` with a string pattern: removes the FIRST
occurrence only. -/
def removeFirstOcc (pat : List Char) : List Char → List Char
  | [] => []
  | a :: t =>
    if pat.isPrefixOf (a :: t) then (a :: t).drop pat.length
    else a :: removeFirstOcc pat t

/- Output data model (interfaces `ChatGPTMessage`, `ChatGPTConversation`,
`ParsedAttachment`, `ParsedZipResult`).  TypeScript `as string` assertions do
not convert at runtime, so fields cast that way stay `Json` here. -/

/-- A normalized message.  `role` is a string; the emitted values are always
one of "user" / "assistant" / "system". -/
structure ChatGPTMessage where
  role : String
  content : String
  timestamp : Option String
  attachments : List String
  deriving DecidableEq

/-- A normalized conversation.  `id`, `title`, `created_at` keep the runtime
JS value (the TS layer merely asserts them to `string`).  `metadata` holds
`originalFilename` and `messageCount`. -/
structure ChatGPTConversation where
  id : Json
  title : Json
  messages : List ChatGPTMessage
  created_at : Json
  updated_at : Option Json
  originalFilename : String
  messageCount : Nat

/-- An extracted attachment record. -/
structure ParsedAttachment where
  name : String
  content : List Nat
  contentType : String
  size : Nat
  relativePath : String
  deriving DecidableEq

/-- The parse result, with the `metadata` counters inlined. -/
structure ParsedZipResult where
  conversations : List ChatGPTConversation
  attachments : List ParsedAttachment
  totalFiles : Nat
  processedConversations : Nat
  processedAttachments : Nat

/-- The three canonical roles, `['user', 'assistant', 'system']`. -/
def canonicalRoles : List String := ["user", "assistant", "system"]

/-- Role resolution fallback: the nested `author` object's `role` field when
it is a canonical string, else the default 'user'. -/
def resolveRoleAuthor (msg : Json) : String :=
  match msg.getField "author" with
  | some author =>
    if jsTruthy author && author.isObjectType then
      match author.getField "role" with
      | some (.str r) => if canonicalRoles.contains r then r else "user"
      | _ => "user"
    else "user"
  | none => "user"

/-- Role resolution of `normalizeMessage`: a canonical string-typed direct
`role` field wins; otherwise the `author` fallback. -/
def resolveRole (msg : Json) : String :=
  match msg.getField "role" with
  | some (.str r) =>
    if canonicalRoles.contains r then r else resolveRoleAuthor msg
  | _ => resolveRoleAuthor msg

/-- Content resolution of `normalizeMessage`: a plain string is used
directly; an object's `parts` array joins its string elements with a single
space (and shadows `text`); else a string-typed `text` field; else ''. -/
def resolveContent (msg : Json) : String :=
  match msg.getField "content" with
  | some (.str s) => s
  | some c =>
    if jsTruthy c && c.isObjectType then
      match c.getField "parts" with
      | some (.arr parts) =>
        String.intercalate " " (parts.filterMap Json.asString)
      | _ =>
        match c.getField "text" with
        | some (.str t) => t
        | _ => ""
    else ""
  | none => ""

/-- Timestamp resolution: string-typed `create_time`, else string-typed
`timestamp`, else unset. -/
def resolveTimestamp (msg : Json) : Option String :=
  match msg.getField "create_time" with
  | some (.str s) => some s
  | _ =>
    match msg.getField "timestamp" with
    | some (.str s) => some s
    | _ => none

/-- Inline attachment references: string elements of an `attachments` array,
else the empty list. -/
def resolveAttachments (msg : Json) : List String :=
  match msg.getField "attachments" with
  | some (.arr xs) => xs.filterMap Json.asString
  | _ => []

/-- `normalizeMessage(msg)`: `none` models the `null` return. -/
def normalizeMessage (msg : Json) : Option ChatGPTMessage :=
  if !(jsTruthy msg && msg.isObjectType) then none
  else if !truthyO (msg.getField "content") then none
  else
    let content := resolveContent msg
    if content = "" ∨ jsTrim content = "" then none
    else
      some
        { role := resolveRole msg
          content := jsTrim content
          timestamp := resolveTimestamp msg
          attachments := resolveAttachments msg }

/-- `generateIdFromFilename`: strip the first occurrence of `.json`, then
replace every non-alphanumeric character by an underscore. -/
def generateIdFromFilename (filename : String) : String :=
  ⟨(removeFirstOcc ".json".data filename.data).map
    (fun c => if c.isAlphanum then c else '_')⟩

/-- Unwrap step of `normalizeConversation`: descend into a truthy
object-typed `conversation` field when present. -/
def unwrapConversation (data : Json) : Json :=
  match data.getField "conversation" with
  | some inner => if jsTruthy inner && inner.isObjectType then inner else data
  | none => data

/-- Message discovery of `normalizeConversation`, applied to the value of
`conversationData.messages || conversationData.mapping || []`: a flat array
is iterated directly; an object (the mapping shape) is iterated over its
values, unwrapping `value.message || value`; anything else yields no
messages. -/
def extractMessages : Json → List ChatGPTMessage
  | .arr xs => xs.filterMap normalizeMessage
  | .obj fields =>
    (fields.map Prod.snd).filterMap fun m =>
      if jsTruthy m && m.isObjectType then
        normalizeMessage (jsOr (m.getField "message") m)
      else none
  | _ => []

/-- `normalizeConversation(data, filename)` with the wall clock `now` passed
explicitly (`new Date().toISOString()`); `none` models the `null` return. -/
def normalizeConversation (data : Json) (filename : String) (now : String) :
    Option ChatGPTConversation :=
  if !(jsTruthy data && data.isObjectType) then none
  else
    let conversationData := unwrapConversation data
    let id := jsOr (conversationData.getField "id")
      (jsOr (conversationData.getField "conversation_id")
        (.str (generateIdFromFilename filename)))
    let title := jsOr (conversationData.getField "title")
      (jsOr (conversationData.getField "name") (.str "Untitled Conversation"))
    let created_at := jsOr (conversationData.getField "create_time")
      (jsOr (conversationData.getField "created_at") (.str now))
    let messageData := jsOr (conversationData.getField "messages")
      (jsOr (conversationData.getField "mapping") (.arr []))
    let messages := extractMessages messageData
    if messages = [] then none
    else
      some
        { id := id
          title := title
          messages := messages
          created_at := created_at
          updated_at := jsOrO (conversationData.getField "update_time")
            (conversationData.getField "updated_at")
          originalFilename := filename
          messageCount := messages.length }

/- Archive level.  JSZip is opaque: a `Buffer` records the byte length and
what `JSZip.loadAsync` does on those bytes. -/

/-- One entry of the opened archive (`zipContent.files[filename]`). -/
structure ZipEntry where
  name : String
  dir : Bool
  /-- `JSON.parse(await file.async('text'))`: `none` when text decoding or
  `JSON.parse` throws (caught by the per-entry try/catch). -/
  textJson : Option Json
  /-- `await file.async('nodebuffer')`, as a byte list. -/
  bytes : List Nat

/-- The input buffer together with the opaque behaviour of
`JSZip.loadAsync` on it: `.error m` is a rejection with message `m`,
`.ok files` the opened entry list (`Object.keys` order). -/
structure Buffer where
  length : Nat
  loadAsync : Except String (List ZipEntry)

/-- Errors thrown by `parseChatGPTZip`, by construction site:
`invalidInput` = `new Error('Invalid input')`, `emptyZip` =
`new Error('Empty ZIP file')`, `invalidZip` = `new Error('Invalid ZIP
file')`, `rethrown m` = a library error with message `m` rethrown as-is. -/
inductive ParseError where
  | invalidInput : ParseError
  | emptyZip : ParseError
  | invalidZip : ParseError
  | rethrown (msg : String) : ParseError
  deriving DecidableEq

/-- The catch-clause test of `parseChatGPTZip`: does the thrown message mark
a zip-container failure? -/
def isZipFormatErrorMessage (m : String) : Bool :=
  jsIncludes m "Invalid or unsupported zip format" ||
  jsIncludes m "Can\x27t find end of central directory"

/-- The branch condition of line 283: root-level `.json` entries (name
lowercases to a `.json` suffix and holds no path separator) go to the
conversation normalizer. -/
def isConversationEntryName (filename : String) : Bool :=
  jsEndsWith (jsToLower filename) ".json" && !(jsIncludes filename "/")

/-- The extension whitelist of `isAttachmentFile`. -/
def attachmentExtensions : List String :=
  [".pdf", ".doc", ".docx", ".txt", ".md",
   ".jpg", ".jpeg", ".png", ".gif", ".webp",
   ".mp4", ".mov", ".avi", ".mp3", ".wav",
   ".zip", ".tar", ".gz", ".csv", ".xlsx"]

/-- `isAttachmentFile(filename)`: not `.json`, not system/hidden (the full
lowercased name contains `__macosx` or starts with a dot), and the extension
is whitelisted. -/
def isAttachmentFile (filename : String) : Bool :=
  let lower := jsToLower filename
  if jsEndsWith lower ".json" then false
  else if jsIncludes lower "__macosx" || jsStartsWith lower "." then false
  else attachmentExtensions.any (fun ext => jsEndsWith lower ext)

/-- The MIME lookup table of `inferContentType`. -/
def mimeTypes : List (String × String) :=
  [("pdf", "application/pdf"),
   ("doc", "application/msword"),
   ("docx", "application/vnd.openxmlformats-officedocument.wordprocessingml.document"),
   ("txt", "text/plain"),
   ("md", "text/markdown"),
   ("jpg", "image/jpeg"),
   ("jpeg", "image/jpeg"),
   ("png", "image/png"),
   ("gif", "image/gif"),
   ("webp", "image/webp"),
   ("mp4", "video/mp4"),
   ("mov", "video/quicktime"),
   ("avi", "video/x-msvideo"),
   ("mp3", "audio/mpeg"),
   ("wav", "audio/wav"),
   ("zip", "application/zip"),
   ("csv", "text/csv"),
   ("xlsx", "application/vnd.openxmlformats-officedocument.spreadsheetml.sheet")]

/-- `inferContentType(filename)`: last dot-separated segment of the
lowercased name, looked up in the table, defaulting to octet-stream. -/
def inferContentType (filename : String) : String :=
  let ext := lastSegment '.' (jsToLower filename)
  match mimeTypes.lookup ext with
  | some mime => mime
  | none => "application/octet-stream"

/-- `getBasename(filepath)`: `split('/').pop() || filepath`. -/
def getBasename (filepath : String) : String :=
  let popped := lastSegment '/' filepath
  if popped = "" then filepath else popped

/-- Outcome of the per-entry callback: a conversation pushed, an attachment
pushed, or nothing (directory, discard, or caught per-entry error). -/
inductive EntryResult where
  | conv (c : ChatGPTConversation) : EntryResult
  | attach (a : ParsedAttachment) : EntryResult
  | skip : EntryResult

/-- The conversation a result contributes, if any. -/
def EntryResult.convOf : EntryResult → Option ChatGPTConversation
  | .conv c => some c
  | _ => none

/-- The attachment a result contributes, if any. -/
def EntryResult.attachOf : EntryResult → Option ParsedAttachment
  | .attach a => some a
  | _ => none

/-- The structured-document branch of the per-entry callback: read the
text, `JSON.parse` it (a throw skips this entry only), normalize. -/
def processJsonEntry (now : String) (file : ZipEntry) : EntryResult :=
  match file.textJson with
  | none => .skip
  | some conversationData =>
    match normalizeConversation conversationData file.name now with
    | some conversation => .conv conversation
    | none => .skip

/-- The per-entry callback of `parseChatGPTZip`: skip directories, dispatch
root-level `.json` entries to the normalizer, extract whitelisted
attachments, skip the rest. -/
def processEntry (now : String) (file : ZipEntry) : EntryResult :=
  if file.dir then .skip
  else if isConversationEntryName file.name then processJsonEntry now file
  else if isAttachmentFile file.name then
    .attach
      { name := getBasename file.name
        content := file.bytes
        contentType := inferContentType file.name
        size := file.bytes.length
        relativePath := file.name }
  else .skip

/-- Aggregation of the per-entry results into a `ParsedZipResult`. -/
def collectResults (files : List ZipEntry) (now : String) : ParsedZipResult :=
  let results := files.map (processEntry now)
  let conversations := results.filterMap EntryResult.convOf
  let attachments := results.filterMap EntryResult.attachOf
  { conversations := conversations
    attachments := attachments
    totalFiles := files.length
    processedConversations := conversations.length
    processedAttachments := attachments.length }

/-- `parseChatGPTZip(zipBuffer)`: input validation, archive opening with
error translation, then independent per-entry processing.  `none` models a
null/undefined buffer argument; `now` is the wall clock. -/
def parseChatGPTZip (zipBuffer : Option Buffer) (now : String) :
    Except ParseError ParsedZipResult :=
  match zipBuffer with
  | none => .error .invalidInput
  | some buf =>
    if buf.length = 0 then .error .emptyZip
    else
      match buf.loadAsync with
      | .error m =>
        if isZipFormatErrorMessage m then .error .invalidZip
        else .error (.rethrown m)
      | .ok files => .ok (collectResults files now)

/- Concrete archives and documents used to instantiate the claims. -/

/-- A well-formed root-level conversation document. -/
def validDocDemo : Json := .obj
  [("id", .str "conv-1"),
   ("title", .str "Test"),
   ("create_time", .str "2025-01-01T00:00:00Z"),
   ("messages", .arr
     [.obj [("role", .str "user"), ("content", .str "Hello")]])]

/-- A root-level `.json` entry holding `validDocDemo`. -/
def goodEntryDemo : ZipEntry := ⟨"good.json", false, some validDocDemo, []⟩

/-- A root-level `.json` entry whose text is not syntactically valid JSON
(`JSON.parse` throws, so `textJson` is `none`). -/
def badEntryDemo : ZipEntry := ⟨"bad.json", false, none, []⟩

/-- An archive holding one corrupt and one valid conversation document. -/
def mixedBufDemo : Buffer := ⟨128, .ok [badEntryDemo, goodEntryDemo]⟩

/-- The conversation `validDocDemo` normalizes to. -/
def goodConvDemo : ChatGPTConversation :=
  { id := .str "conv-1"
    title := .str "Test"
    messages := [⟨"user", "Hello", none, []⟩]
    created_at := .str "2025-01-01T00:00:00Z"
    updated_at := none
    originalFilename := "good.json"
    messageCount := 1 }

/-- A document whose only message content needs trimming. -/
def docDemo2 : Json := .obj
  [("messages", .arr
    [.obj [("role", .str "assistant"), ("content", .str "  Hi  ")]])]

/-- Root entry for `docDemo2`. -/
def entryDemo2 : ZipEntry := ⟨"c.json", false, some docDemo2, []⟩

/-- Archive holding only `entryDemo2`. -/
def bufDemo2 : Buffer := ⟨64, .ok [entryDemo2]⟩

/-- The conversation `docDemo2` normalizes to at wall clock "T". -/
def convDemo2 : ChatGPTConversation :=
  { id := .str "c"
    title := .str "Untitled Conversation"
    messages := [⟨"assistant", "Hi", none, []⟩]
    created_at := .str "T"
    updated_at := none
    originalFilename := "c.json"
    messageCount := 1 }

/-- The parse result for `bufDemo2` at wall clock "T". -/
def resDemo2 : ParsedZipResult := ⟨[convDemo2], [], 1, 1, 0⟩

/-- A rejection message JSZip produces on non-archive bytes. -/
def notZipMessageDemo : String :=
  "Can\x27t find end of central directory : is this a zip file?"

/-- A non-empty buffer of non-archive bytes (e.g. a plain-text payload). -/
def notZipBufDemo : Buffer := ⟨17, .error notZipMessageDemo⟩

/-- A root entry named like a conversation document, used with `claim_C5`. -/
def rootJsonEntryDemo : ZipEntry := ⟨"conv1.json", false, none, []⟩

/-- A non-directory entry with an unrecognized extension. -/
def unknownExtEntryDemo : ZipEntry := ⟨"notes.xyz", false, none, [1, 2, 3]⟩

/-- Archive holding only the unrecognized-extension entry. -/
def unknownExtBufDemo : Buffer := ⟨32, .ok [unknownExtEntryDemo]⟩

/-- A whitelisted attachment whose extension has no MIME mapping. -/
def tarEntryDemo : ZipEntry := ⟨"data.tar", false, none, [0]⟩

/-- A hidden file inside a subdirectory, with a whitelisted extension. -/
def hiddenEntryDemo : ZipEntry := ⟨"images/.hidden.png", false, none, [137]⟩

/-- Archive holding only the nested hidden file. -/
def hiddenBufDemo : Buffer := ⟨16, .ok [hiddenEntryDemo]⟩

/-- A platform-metadata entry (name contains the `__macosx` marker). -/
def macosxEntryDemo : ZipEntry := ⟨"__MACOSX/conv.png", false, none, []⟩

/-- A message whose content object carries both `parts` and `text`. -/
def msgDemo8 : Json := .obj
  [("content", .obj
    [("parts", .arr [.str "Hi", .str "there"]),
     ("text", .str "ignored")])]

/-- A message with an unrecognized direct role and a canonical author role. -/
def msgDemo9 : Json := .obj
  [("role", .str "tool"),
   ("author", .obj [("role", .str "system")]),
   ("content", .str "x")]

/-- A document carrying no `create_time`/`created_at`. -/
def docDemo10 : Json := .obj
  [("messages", .arr
    [.obj [("role", .str "user"), ("content", .str "Hello")]])]

/-- Root entry for `docDemo10`. -/
def entryDemo10 : ZipEntry := ⟨"conv.json", false, some docDemo10, []⟩

/-- Archive holding only `entryDemo10`. -/
def bufDemo10 : Buffer := ⟨48, .ok [entryDemo10]⟩

/-- The conversation `docDemo10` normalizes to at wall clock "T". -/
def convDemo10 : ChatGPTConversation :=
  { id := .str "conv"
    title := .str "Untitled Conversation"
    messages := [⟨"user", "Hello", none, []⟩]
    created_at := .str "T"
    updated_at := none
    originalFilename := "conv.json"
    messageCount := 1 }

/- Theorems.  First, shared lemmas about the normalizers. -/

/-- A string accepted by the canonical-role membership test is one of the
three role literals. -/
theorem contains_canonical (r : String)
    (hc : canonicalRoles.contains r = true) :
    r = "user" ∨ r = "assistant" ∨ r = "system" := by
  have hm : r ∈ canonicalRoles := by simpa using hc
  simpa [canonicalRoles] using hm

/-- The author-fallback role is always canonical. -/
theorem resolveRoleAuthor_mem (msg : Json) :
    resolveRoleAuthor msg = "user" ∨ resolveRoleAuthor msg = "assistant" ∨
      resolveRoleAuthor msg = "system" := by
  unfold resolveRoleAuthor
  split
  · split
    · split
      · rename_i r hc
        split
        · rename_i hc2
          exact contains_canonical r hc2
        · left; rfl
      · left; rfl
    · left; rfl
  · left; rfl

/-- The resolved role is always canonical. -/
theorem resolveRole_mem (msg : Json) :
    resolveRole msg = "user" ∨ resolveRole msg = "assistant" ∨
      resolveRole msg = "system" := by
  unfold resolveRole
  split
  · split
    · rename_i hc
      exact contains_canonical _ hc
    · exact resolveRoleAuthor_mem msg
  · exact resolveRoleAuthor_mem msg

/-- Inversion of `normalizeMessage`: an emitted message carries the resolved
role and the trimmed resolved content, and that content passed the non-empty
guard. -/
theorem normalizeMessage_some_inv (msg : Json) (out : ChatGPTMessage)
    (h : normalizeMessage msg = some out) :
    out.role = resolveRole msg ∧ out.content = jsTrim (resolveContent msg) ∧
    resolveContent msg ≠ "" ∧ jsTrim (resolveContent msg) ≠ "" := by
  simp only [normalizeMessage] at h
  split at h
  · exact absurd h (by simp)
  split at h
  · exact absurd h (by simp)
  split at h
  · exact absurd h (by simp)
  · rename_i hguard
    rw [not_or] at hguard
    cases h
    exact ⟨rfl, rfl, hguard.1, hguard.2⟩

/-- Without a canonical string-typed direct role, role resolution falls
through to the author rule. -/
theorem resolveRole_eq_author (msg : Json)
    (hinv : ∀ r', msg.getField "role" = some (.str r') →
      canonicalRoles.contains r' = false) :
    resolveRole msg = resolveRoleAuthor msg := by
  unfold resolveRole
  split
  · rename_i r heq
    have hc := hinv r heq
    have hn : ¬(canonicalRoles.contains r = true) := by rw [hc]; simp
    rw [if_neg hn]
  · rfl

/-- A canonical string-typed role inside the author object wins the
fallback. -/
theorem resolveRoleAuthor_valid (msg a : Json) (r : String)
    (ha : msg.getField "author" = some a)
    (hr : a.getField "role" = some (.str r))
    (hc : canonicalRoles.contains r = true) :
    resolveRoleAuthor msg = r := by
  have hmem : r ∈ canonicalRoles := by simpa using hc
  cases a with
  | obj fields =>
    simp only [Json.getField] at hr
    simp only [resolveRoleAuthor]
    rw [ha]
    simp [jsTruthy, Json.isObjectType, Json.getField, hr, hc, hmem]
  | null => simp [Json.getField] at hr
  | bool b => simp [Json.getField] at hr
  | num n => simp [Json.getField] at hr
  | str s => simp [Json.getField] at hr
  | arr xs => simp [Json.getField] at hr

/-- Without a canonical author role either, the fallback yields the default
'user'. -/
theorem resolveRoleAuthor_default (msg : Json)
    (hainv : ∀ a r', msg.getField "author" = some a →
      a.getField "role" = some (.str r') → canonicalRoles.contains r' = false) :
    resolveRoleAuthor msg = "user" := by
  cases ha : msg.getField "author" with
  | none => simp [resolveRoleAuthor, ha]
  | some a =>
    have hainv2 := fun r' => hainv a r' ha
    cases a with
    | null =>
      simp only [resolveRoleAuthor]
      rw [ha]
      simp [jsTruthy]
    | bool b =>
      simp only [resolveRoleAuthor]
      rw [ha]
      simp [jsTruthy, Json.isObjectType]
    | num n =>
      simp only [resolveRoleAuthor]
      rw [ha]
      simp [jsTruthy, Json.isObjectType]
    | str s =>
      simp only [resolveRoleAuthor]
      rw [ha]
      simp [jsTruthy, Json.isObjectType]
    | arr xs =>
      simp only [resolveRoleAuthor]
      rw [ha]
      simp [jsTruthy, Json.isObjectType, Json.getField]
    | obj fields =>
      simp only [Json.getField] at hainv2
      simp only [resolveRoleAuthor]
      rw [ha]
      cases hr : lookupField fields "role" with
      | none => simp [jsTruthy, Json.isObjectType, Json.getField, hr]
      | some v =>
        cases v with
        | str r =>
          have hc := hainv2 r hr
          have hnmem : r ∉ canonicalRoles := by simpa using hc
          simp [jsTruthy, Json.isObjectType, Json.getField, hr, hc, hnmem]
        | null => simp [jsTruthy, Json.isObjectType, Json.getField, hr]
        | bool b => simp [jsTruthy, Json.isObjectType, Json.getField, hr]
        | num n => simp [jsTruthy, Json.isObjectType, Json.getField, hr]
        | arr xs => simp [jsTruthy, Json.isObjectType, Json.getField, hr]
        | obj fs => simp [jsTruthy, Json.isObjectType, Json.getField, hr]

/-- C3: `parseChatGPTZip` fails with the InvalidInputError failure
(`'Invalid input'`) exactly when the buffer is absent, and with the
EmptyArchiveError failure (`'Empty ZIP file'`) exactly when a buffer is
supplied with zero length; in both cases no result is produced (the return
type separates thrown errors from results). -/
theorem claim_C3 (now : String) (b : Option Buffer) :
    (parseChatGPTZip b now = .error .invalidInput ↔ b = none) ∧
    (parseChatGPTZip b now = .error .emptyZip ↔
      ∃ buf, b = some buf ∧ buf.length = 0) := by
  cases b with
  | none => simp [parseChatGPTZip]
  | some buf =>
    by_cases h0 : buf.length = 0
    · simp [parseChatGPTZip, h0]
    · cases hl : buf.loadAsync with
      | error m =>
        by_cases hf : isZipFormatErrorMessage m
        · simp [parseChatGPTZip, h0, hl, hf]
        · simp [parseChatGPTZip, h0, hl, hf]
      | ok files => simp [parseChatGPTZip, h0, hl]

/-- C4: a non-empty buffer that cannot be opened as an archive (the library
rejects it with a zip-format error message) makes `parseChatGPTZip` fail
with the InvalidArchiveError failure (`'Invalid ZIP file'`); no partial
result is returned. -/
theorem claim_C4 (now : String) (buf : Buffer) (m : String)
    (hlen : buf.length ≠ 0) (hload : buf.loadAsync = Except.error m)
    (hmsg : isZipFormatErrorMessage m = true) :
    parseChatGPTZip (some buf) now = .error .invalidZip := by
  simp [parseChatGPTZip, hlen, hload, hmsg]

/-- Witness for C4: plain-text bytes rejected by the archive library yield
the InvalidArchiveError failure. -/
theorem claim_C4_witness :
    parseChatGPTZip (some notZipBufDemo) "T" = .error .invalidZip :=
  claim_C4 "T" notZipBufDemo notZipMessageDemo (by decide) rfl (by decide)

/-- C5: a non-directory entry is dispatched to the conversation normalizer
if and only if its name ends in `.json` case-insensitively and contains no
path separator; under any other name it can never contribute a
conversation, and `sub/doc.json` fails the condition. -/
theorem claim_C5 (now : String) (f : ZipEntry) (hdir : f.dir = false) :
    (isConversationEntryName f.name = true →
      processEntry now f = processJsonEntry now f) ∧
    (isConversationEntryName f.name = false →
      ∀ c, processEntry now f ≠ EntryResult.conv c) ∧
    isConversationEntryName "sub/doc.json" = false := by
  refine ⟨?_, ?_, by decide⟩
  · intro h
    simp [processEntry, hdir, h]
  · intro h c
    simp only [processEntry, hdir, h, Bool.false_eq_true, if_false]
    split <;> simp

/-- Witness for C5: a root-level `.json` entry is dispatched to the
conversation-normalizer branch. -/
theorem claim_C5_witness :
    processEntry "T" rootJsonEntryDemo = processJsonEntry "T" rootJsonEntryDemo :=
  (claim_C5 "T" rootJsonEntryDemo rfl).1 (by decide)

/-- C6 (amended): a non-directory entry that is not a root-level `.json`
entry is extracted into an Attachment record exactly when
`isAttachmentFile` accepts it (whitelisted extension, no noise markers);
every extracted attachment carries `inferContentType` of its name, and
`inferContentType` defaults to `application/octet-stream` whenever the
final extension has no MIME mapping. -/
theorem claim_C6 (now : String) (f : ZipEntry) (hdir : f.dir = false)
    (hnotjson : isConversationEntryName f.name = false) :
    ((∃ a, processEntry now f = EntryResult.attach a) ↔
      isAttachmentFile f.name = true) ∧
    (∀ a, processEntry now f = EntryResult.attach a →
      a.contentType = inferContentType f.name) ∧
    (∀ name, mimeTypes.lookup (lastSegment '.' (jsToLower name)) = none →
      inferContentType name = "application/octet-stream") := by
  refine ⟨⟨?_, ?_⟩, ?_, ?_⟩
  · rintro ⟨a, ha⟩
    by_cases hA : isAttachmentFile f.name
    · exact hA
    · simp [processEntry, hdir, hnotjson, hA] at ha
  · intro hA
    have hstep : processEntry now f = EntryResult.attach
        { name := getBasename f.name, content := f.bytes,
          contentType := inferContentType f.name, size := f.bytes.length,
          relativePath := f.name } := by
      simp [processEntry, hdir, hnotjson, hA]
    exact ⟨_, hstep⟩
  · intro a ha
    by_cases hA : isAttachmentFile f.name
    · simp [processEntry, hdir, hnotjson, hA] at ha
      rw [← ha]
    · simp [processEntry, hdir, hnotjson, hA] at ha
  · intro name h
    simp [inferContentType, h]

/-- Counterexample to C6 as stated: the unrecognized-extension entry
`notes.xyz` is NOT extracted — the archive containing it parses to a result
with no attachments at all. -/
theorem claim_C6_counterexample :
    processEntry "T" unknownExtEntryDemo = EntryResult.skip ∧
    parseChatGPTZip (some unknownExtBufDemo) "T" =
      Except.ok ⟨[], [], 1, 0, 0⟩ := ⟨rfl, rfl⟩

/-- Witness for C6: a `.tar` name has no MIME mapping, so its content type
defaults to octet-stream. -/
theorem claim_C6_witness :
    inferContentType "data.tar" = "application/octet-stream" :=
  (claim_C6 "T" tarEntryDemo rfl (by decide)).2.2 "data.tar" (by decide)

/-- C7 (amended): a non-directory, non-root-`.json` entry whose FULL
lowercased name contains `__macosx` or starts with the hidden-file marker
contributes nothing to the result. -/
theorem claim_C7 (now : String) (f : ZipEntry) (hdir : f.dir = false)
    (hnotjson : isConversationEntryName f.name = false)
    (hnoise : (jsIncludes (jsToLower f.name) "__macosx" ||
      jsStartsWith (jsToLower f.name) ".") = true) :
    processEntry now f = EntryResult.skip := by
  have hA : isAttachmentFile f.name = false := by
    simp only [isAttachmentFile]
    by_cases hj : jsEndsWith (jsToLower f.name) ".json"
    · simp [hj]
    · simp [hj, hnoise]
  simp [processEntry, hdir, hnotjson, hA]

/-- Counterexample to C7 as stated: the hidden file `images/.hidden.png`
inside a subdirectory is NOT discarded — it is extracted as an attachment,
because the hidden-file check applies to the full path, not the base
name. -/
theorem claim_C7_counterexample :
    parseChatGPTZip (some hiddenBufDemo) "T" =
      Except.ok ⟨[], [⟨".hidden.png", [137], "image/png", 1,
        "images/.hidden.png"⟩], 1, 0, 1⟩ := rfl

/-- Witness for C7: a platform-metadata entry under `__MACOSX/` is
skipped. -/
theorem claim_C7_witness :
    processEntry "T" macosxEntryDemo = EntryResult.skip :=
  claim_C7 "T" macosxEntryDemo rfl (by decide) (by decide)

/-- C8: message content resolution follows the fixed precedence — a plain
string content field is used directly; a `parts` array joins its string
elements with one space and shadows any `text` field; only with no `parts`
array is a string-typed `text` used; anything else resolves to the empty
string, and an empty resolution drops the message. -/
theorem claim_C8 (msg : Json) :
    (∀ s, msg.getField "content" = some (.str s) → resolveContent msg = s) ∧
    (∀ c parts, msg.getField "content" = some c →
      c.getField "parts" = some (.arr parts) →
      resolveContent msg = String.intercalate " " (parts.filterMap Json.asString)) ∧
    (∀ c t, msg.getField "content" = some c → jsTruthy c = true →
      c.isObjectType = true →
      (∀ parts, c.getField "parts" ≠ some (.arr parts)) →
      c.getField "text" = some (.str t) → resolveContent msg = t) ∧
    (∀ c, msg.getField "content" = some c → jsTruthy c = true →
      c.isObjectType = true →
      (∀ parts, c.getField "parts" ≠ some (.arr parts)) →
      (∀ t, c.getField "text" ≠ some (.str t)) → resolveContent msg = "") ∧
    (resolveContent msg = "" → normalizeMessage msg = none) := by
  refine ⟨?_, ?_, ?_, ?_, ?_⟩
  · intro s h
    simp [resolveContent, h]
  · intro c parts h hp
    cases c <;> simp only [Json.getField] at hp
    case obj fields =>
      simp only [resolveContent]
      rw [h]
      simp [Json.getField, jsTruthy, Json.isObjectType, hp]
    all_goals exact absurd hp (by simp)
  · intro c t h htr hobj hnp htext
    cases c with
    | null => simp [jsTruthy] at htr
    | bool b => simp [Json.isObjectType] at hobj
    | num n => simp [Json.isObjectType] at hobj
    | str s => simp [Json.getField] at htext
    | arr xs => simp [Json.getField] at htext
    | obj fields =>
      simp only [Json.getField] at htext hnp
      simp only [resolveContent]
      rw [h]
      cases hps : lookupField fields "parts" with
      | none => simp [Json.getField, jsTruthy, Json.isObjectType, hps, htext]
      | some v =>
        cases v with
        | arr parts => exact absurd hps (hnp parts)
        | null => simp [Json.getField, jsTruthy, Json.isObjectType, hps, htext]
        | bool b => simp [Json.getField, jsTruthy, Json.isObjectType, hps, htext]
        | num n => simp [Json.getField, jsTruthy, Json.isObjectType, hps, htext]
        | str s => simp [Json.getField, jsTruthy, Json.isObjectType, hps, htext]
        | obj fs => simp [Json.getField, jsTruthy, Json.isObjectType, hps, htext]
  · intro c h htr hobj hnp hnt
    cases c with
    | null => simp [jsTruthy] at htr
    | bool b => simp [Json.isObjectType] at hobj
    | num n => simp [Json.isObjectType] at hobj
    | str s => simp [Json.isObjectType] at hobj
    | arr xs =>
      simp only [resolveContent]
      rw [h]
      simp [Json.getField]
    | obj fields =>
      simp only [Json.getField] at hnp hnt
      simp only [resolveContent]
      rw [h]
      cases hps : lookupField fields "parts" with
      | none =>
        cases hpt : lookupField fields "text" with
        | none => simp [Json.getField, jsTruthy, Json.isObjectType, hps, hpt]
        | some w =>
          cases w with
          | str t => exact absurd hpt (hnt t)
          | null => simp [Json.getField, jsTruthy, Json.isObjectType, hps, hpt]
          | bool b => simp [Json.getField, jsTruthy, Json.isObjectType, hps, hpt]
          | num n => simp [Json.getField, jsTruthy, Json.isObjectType, hps, hpt]
          | arr xs => simp [Json.getField, jsTruthy, Json.isObjectType, hps, hpt]
          | obj fs => simp [Json.getField, jsTruthy, Json.isObjectType, hps, hpt]
      | some v =>
        cases v with
        | arr parts => exact absurd hps (hnp parts)
        | null =>
          cases hpt : lookupField fields "text" with
          | none => simp [Json.getField, jsTruthy, Json.isObjectType, hps, hpt]
          | some w =>
            cases w with
            | str t => exact absurd hpt (hnt t)
            | null => simp [Json.getField, jsTruthy, Json.isObjectType, hps, hpt]
            | bool b => simp [Json.getField, jsTruthy, Json.isObjectType, hps, hpt]
            | num n => simp [Json.getField, jsTruthy, Json.isObjectType, hps, hpt]
            | arr xs => simp [Json.getField, jsTruthy, Json.isObjectType, hps, hpt]
            | obj fs => simp [Json.getField, jsTruthy, Json.isObjectType, hps, hpt]
        | bool b =>
          cases hpt : lookupField fields "text" with
          | none => simp [Json.getField, jsTruthy, Json.isObjectType, hps, hpt]
          | some w =>
            cases w with
            | str t => exact absurd hpt (hnt t)
            | null => simp [Json.getField, jsTruthy, Json.isObjectType, hps, hpt]
            | bool b => simp [Json.getField, jsTruthy, Json.isObjectType, hps, hpt]
            | num n => simp [Json.getField, jsTruthy, Json.isObjectType, hps, hpt]
            | arr xs => simp [Json.getField, jsTruthy, Json.isObjectType, hps, hpt]
            | obj fs => simp [Json.getField, jsTruthy, Json.isObjectType, hps, hpt]
        | num n =>
          cases hpt : lookupField fields "text" with
          | none => simp [Json.getField, jsTruthy, Json.isObjectType, hps, hpt]
          | some w =>
            cases w with
            | str t => exact absurd hpt (hnt t)
            | null => simp [Json.getField, jsTruthy, Json.isObjectType, hps, hpt]
            | bool b => simp [Json.getField, jsTruthy, Json.isObjectType, hps, hpt]
            | num n => simp [Json.getField, jsTruthy, Json.isObjectType, hps, hpt]
            | arr xs => simp [Json.getField, jsTruthy, Json.isObjectType, hps, hpt]
            | obj fs => simp [Json.getField, jsTruthy, Json.isObjectType, hps, hpt]
        | str s =>
          cases hpt : lookupField fields "text" with
          | none => simp [Json.getField, jsTruthy, Json.isObjectType, hps, hpt]
          | some w =>
            cases w with
            | str t => exact absurd hpt (hnt t)
            | null => simp [Json.getField, jsTruthy, Json.isObjectType, hps, hpt]
            | bool b => simp [Json.getField, jsTruthy, Json.isObjectType, hps, hpt]
            | num n => simp [Json.getField, jsTruthy, Json.isObjectType, hps, hpt]
            | arr xs => simp [Json.getField, jsTruthy, Json.isObjectType, hps, hpt]
            | obj fs => simp [Json.getField, jsTruthy, Json.isObjectType, hps, hpt]
        | obj fs2 =>
          cases hpt : lookupField fields "text" with
          | none => simp [Json.getField, jsTruthy, Json.isObjectType, hps, hpt]
          | some w =>
            cases w with
            | str t => exact absurd hpt (hnt t)
            | null => simp [Json.getField, jsTruthy, Json.isObjectType, hps, hpt]
            | bool b => simp [Json.getField, jsTruthy, Json.isObjectType, hps, hpt]
            | num n => simp [Json.getField, jsTruthy, Json.isObjectType, hps, hpt]
            | arr xs => simp [Json.getField, jsTruthy, Json.isObjectType, hps, hpt]
            | obj fs => simp [Json.getField, jsTruthy, Json.isObjectType, hps, hpt]
  · intro h
    simp [normalizeMessage, h]

/-- Witness for C8: a content object carrying both `parts` and `text`
resolves via `parts` (string elements joined by one space). -/
theorem claim_C8_witness :
    resolveContent msgDemo8 =
      String.intercalate " " ([Json.str "Hi", Json.str "there"].filterMap Json.asString) :=
  (claim_C8 msgDemo8).2.1
    (Json.obj [("parts", Json.arr [Json.str "Hi", Json.str "there"]),
      ("text", Json.str "ignored")])
    [Json.str "Hi", Json.str "there"] rfl rfl

/-- C9: every emitted message role is one of the three canonical values; a
canonical string-typed direct role wins; otherwise a canonical author role
wins; otherwise the default 'user' applies. -/
theorem claim_C9 (msg : Json) :
    (∀ out, normalizeMessage msg = some out →
      out.role = "user" ∨ out.role = "assistant" ∨ out.role = "system") ∧
    (∀ r, msg.getField "role" = some (.str r) →
      canonicalRoles.contains r = true → resolveRole msg = r) ∧
    (∀ a r, (∀ r', msg.getField "role" = some (.str r') →
        canonicalRoles.contains r' = false) →
      msg.getField "author" = some a →
      a.getField "role" = some (.str r) →
      canonicalRoles.contains r = true → resolveRole msg = r) ∧
    ((∀ r', msg.getField "role" = some (.str r') →
        canonicalRoles.contains r' = false) →
      (∀ a r', msg.getField "author" = some a →
        a.getField "role" = some (.str r') →
        canonicalRoles.contains r' = false) →
      resolveRole msg = "user") := by
  refine ⟨?_, ?_, ?_, ?_⟩
  · intro out h
    rw [(normalizeMessage_some_inv msg out h).1]
    exact resolveRole_mem msg
  · intro r h hc
    have hmem : r ∈ canonicalRoles := by simpa using hc
    simp only [resolveRole]
    rw [h]
    simp [hc, hmem]
  · intro a r hinv ha hr hc
    rw [resolveRole_eq_author msg hinv]
    exact resolveRoleAuthor_valid msg a r ha hr hc
  · intro hinv hainv
    rw [resolveRole_eq_author msg hinv]
    exact resolveRoleAuthor_default msg hainv

/-- Witness for C9: an unrecognized direct role ('tool') defers to the
author object's canonical role ('system'). -/
theorem claim_C9_witness : resolveRole msgDemo9 = "system" :=
  (claim_C9 msgDemo9).2.2.1 (Json.obj [("role", Json.str "system")]) "system"
    (by
      intro r' h
      simp [msgDemo9, Json.getField, lookupField] at h
      subst h
      decide)
    rfl rfl (by decide)

/-- JS `a || b` falls through when the left side is falsy. -/
theorem jsOr_of_falsy (a : Option Json) (b : Json) (h : truthyO a = false) :
    jsOr a b = b := by
  cases a with
  | none => rfl
  | some v =>
    simp only [truthyO] at h
    simp [jsOr, h]

/-- JS `a || b` keeps a truthy left side. -/
theorem jsOr_of_truthy (a : Option Json) (b v : Json) (h : a = some v)
    (ht : jsTruthy v = true) : jsOr a b = v := by
  subst h
  simp [jsOr, ht]

/-- An emitted conversation's `created_at` is the `||`-chain over the
document's `create_time`, `created_at` and the wall clock. -/
theorem normalizeConversation_created_at (data : Json) (filename now : String)
    (conv : ChatGPTConversation)
    (h : normalizeConversation data filename now = some conv) :
    conv.created_at =
      jsOr ((unwrapConversation data).getField "create_time")
        (jsOr ((unwrapConversation data).getField "created_at") (.str now)) := by
  simp only [normalizeConversation] at h
  split at h
  · exact absurd h (by simp)
  split at h
  · exact absurd h (by simp)
  · cases h
    rfl

/-- C10: a conversation from a document with no truthy `create_time` or
`created_at` field gets the wall-clock time of the parse invocation as its
`created_at`; a truthy `create_time` is preserved verbatim; consequently
parsing the same timestamp-free archive at two different wall-clock times
returns different results. -/
theorem claim_C10 :
    (∀ now data filename conv,
      normalizeConversation data filename now = some conv →
      ((truthyO ((unwrapConversation data).getField "create_time") = false →
        truthyO ((unwrapConversation data).getField "created_at") = false →
        conv.created_at = Json.str now) ∧
       (∀ v, (unwrapConversation data).getField "create_time" = some v →
        jsTruthy v = true → conv.created_at = v))) ∧
    parseChatGPTZip (some bufDemo10) "2024-01-01T00:00:00.000Z" ≠
      parseChatGPTZip (some bufDemo10) "2024-01-02T00:00:00.000Z" := by
  constructor
  · intro now data filename conv h
    have hca := normalizeConversation_created_at data filename now conv h
    constructor
    · intro h1 h2
      rw [hca, jsOr_of_falsy _ _ h1, jsOr_of_falsy _ _ h2]
    · intro v hv htv
      rw [hca, jsOr_of_truthy _ _ v hv htv]
  · intro h
    have h2 := congrArg
      (fun r => match r with
        | Except.ok res =>
          match res.conversations with
          | c :: _ =>
            match c.created_at with
            | Json.str s => s
            | _ => ""
          | [] => ""
        | Except.error _ => "") h
    exact absurd h2 (by decide)

/-- Witness for C10: the timestamp-free demo document normalized at wall
clock "T" carries `created_at = "T"`. -/
theorem claim_C10_witness : convDemo10.created_at = Json.str "T" :=
  ((claim_C10.1 "T" docDemo10 "conv.json" convDemo10 rfl).1 rfl rfl)

/-- Dropping a matching run never lengthens a list. -/
theorem length_dropWhile_le (p : Char → Bool) (l : List Char) :
    (l.dropWhile p).length ≤ l.length := by
  induction l with
  | nil => simp
  | cons a t ih =>
    by_cases h : p a
    · rw [List.dropWhile_cons, if_pos h]
      simp only [List.length_cons]
      omega
    · rw [List.dropWhile_cons, if_neg h]

/-- `dropWhile` is idempotent. -/
theorem dropWhile_dropWhile (p : Char → Bool) (l : List Char) :
    (l.dropWhile p).dropWhile p = l.dropWhile p := by
  induction l with
  | nil => rfl
  | cons a t ih =>
    by_cases h : p a
    · simp [List.dropWhile_cons, h, ih]
    · simp [List.dropWhile_cons, h]

/-- A prefix of a `dropWhile`-fixed list is itself `dropWhile`-fixed. -/
theorem dropWhile_of_append_eq (p : Char → Bool) (m k : List Char)
    (h : (m ++ k).dropWhile p = m ++ k) : m.dropWhile p = m := by
  cases m with
  | nil => rfl
  | cons a t =>
    by_cases hp : p a
    · exfalso
      have hlen := congrArg List.length h
      simp [List.dropWhile_cons, hp] at hlen
      have hle := length_dropWhile_le p (t ++ k)
      simp at hle
      omega
    · simp [List.dropWhile_cons, hp]

/-- Character-list trimming is idempotent. -/
theorem trimChars_idem (l : List Char) :
    trimChars (trimChars l) = trimChars l := by
  have h1 : (l.dropWhile Char.isWhitespace).dropWhile Char.isWhitespace
      = l.dropWhile Char.isWhitespace := dropWhile_dropWhile _ l
  have hsplit : l.dropWhile Char.isWhitespace =
      ((l.dropWhile Char.isWhitespace).reverse.dropWhile Char.isWhitespace).reverse ++
      ((l.dropWhile Char.isWhitespace).reverse.takeWhile Char.isWhitespace).reverse := by
    rw [← List.reverse_append, List.takeWhile_append_dropWhile,
      List.reverse_reverse]
  have hA : (((l.dropWhile Char.isWhitespace).reverse.dropWhile
        Char.isWhitespace).reverse).dropWhile Char.isWhitespace =
      ((l.dropWhile Char.isWhitespace).reverse.dropWhile Char.isWhitespace).reverse := by
    apply dropWhile_of_append_eq Char.isWhitespace _
      ((l.dropWhile Char.isWhitespace).reverse.takeWhile Char.isWhitespace).reverse
    rw [← hsplit]
    exact h1
  unfold trimChars
  rw [hA, List.reverse_reverse, dropWhile_dropWhile]

/-- JS trimming is idempotent. -/
theorem jsTrim_idem (s : String) : jsTrim (jsTrim s) = jsTrim s :=
  congrArg String.mk (trimChars_idem s.data)

/-- A successful parse came from a supplied, non-rejected buffer and is the
aggregation of the independent per-entry results. -/
theorem parse_ok_inv (now : String) (b : Option Buffer) (res : ParsedZipResult)
    (h : parseChatGPTZip b now = .ok res) :
    ∃ buf files, b = some buf ∧ buf.loadAsync = .ok files ∧
      res = collectResults files now := by
  cases b with
  | none => simp [parseChatGPTZip] at h
  | some buf =>
    simp only [parseChatGPTZip] at h
    split at h
    · exact absurd h (by simp)
    · split at h
      · split at h
        · exact absurd h (by simp)
        · exact absurd h (by simp)
      · rename_i files heq
        injection h with h2
        exact ⟨buf, files, rfl, heq, h2.symm⟩

/-- Every aggregated conversation was produced by some entry's callback. -/
theorem collect_conversations_mem (files : List ZipEntry) (now : String)
    (c : ChatGPTConversation)
    (hc : c ∈ (collectResults files now).conversations) :
    ∃ f ∈ files, processEntry now f = EntryResult.conv c := by
  simp only [collectResults] at hc
  rw [List.mem_filterMap] at hc
  obtain ⟨r, hr, hconv⟩ := hc
  rw [List.mem_map] at hr
  obtain ⟨f, hf, hfr⟩ := hr
  subst hfr
  cases hpe : processEntry now f with
  | conv c2 =>
    rw [hpe] at hconv
    simp [EntryResult.convOf] at hconv
    exact ⟨f, hf, by rw [hpe, hconv]⟩
  | attach a =>
    rw [hpe] at hconv
    simp [EntryResult.convOf] at hconv
  | skip =>
    rw [hpe] at hconv
    simp [EntryResult.convOf] at hconv

/-- A conversation-producing entry had parseable text that normalized. -/
theorem processEntry_conv_inv (now : String) (f : ZipEntry)
    (c : ChatGPTConversation) (h : processEntry now f = EntryResult.conv c) :
    ∃ data, f.textJson = some data ∧
      normalizeConversation data f.name now = some c := by
  simp only [processEntry] at h
  split at h
  · exact absurd h (by simp)
  split at h
  · simp only [processJsonEntry] at h
    split at h
    · exact absurd h (by simp)
    · rename_i data heq
      split at h
      · rename_i conv2 hnorm
        injection h with h2
        exact ⟨data, heq, by rw [hnorm, h2]⟩
      · exact absurd h (by simp)
  · split at h
    · exact absurd h (by simp)
    · exact absurd h (by simp)

/-- Every discovered message came out of `normalizeMessage`. -/
theorem extractMessages_mem (j : Json) (m : ChatGPTMessage)
    (hm : m ∈ extractMessages j) :
    ∃ raw, normalizeMessage raw = some m := by
  cases j with
  | arr xs =>
    simp only [extractMessages] at hm
    rw [List.mem_filterMap] at hm
    obtain ⟨raw, _, hr⟩ := hm
    exact ⟨raw, hr⟩
  | obj fields =>
    simp only [extractMessages] at hm
    rw [List.mem_filterMap] at hm
    obtain ⟨v, _, hr⟩ := hm
    split at hr
    · exact ⟨_, hr⟩
    · exact absurd hr (by simp)
  | null => simp [extractMessages] at hm
  | bool b => simp [extractMessages] at hm
  | num n => simp [extractMessages] at hm
  | str s => simp [extractMessages] at hm

/-- An emitted conversation has a non-empty message list, and each of its
messages came out of `normalizeMessage`. -/
theorem normalizeConversation_messages (data : Json) (filename now : String)
    (conv : ChatGPTConversation)
    (h : normalizeConversation data filename now = some conv) :
    conv.messages ≠ [] ∧
      ∀ m ∈ conv.messages, ∃ raw, normalizeMessage raw = some m := by
  simp only [normalizeConversation] at h
  split at h
  · exact absurd h (by simp)
  split at h
  · exact absurd h (by simp)
  · rename_i hne
    cases h
    refine ⟨hne, ?_⟩
    intro m hm
    exact extractMessages_mem _ m hm

/-- C2: every conversation in a successful parse result has a non-empty
message sequence, and every message in it has content that is a non-empty
string and is already trimmed (hence still non-empty after trimming). -/
theorem claim_C2 (now : String) (b : Option Buffer) (res : ParsedZipResult)
    (h : parseChatGPTZip b now = Except.ok res) :
    ∀ c ∈ res.conversations, c.messages ≠ [] ∧
      ∀ m ∈ c.messages, m.content ≠ "" ∧ jsTrim m.content = m.content ∧
        jsTrim m.content ≠ "" := by
  obtain ⟨buf, files, -, -, rfl⟩ := parse_ok_inv now b res h
  intro c hc
  obtain ⟨f, -, hpe⟩ := collect_conversations_mem files now c hc
  obtain ⟨data, -, hnorm⟩ := processEntry_conv_inv now f c hpe
  obtain ⟨hne, hmem⟩ := normalizeConversation_messages data f.name now c hnorm
  refine ⟨hne, ?_⟩
  intro m hm
  obtain ⟨raw, hraw⟩ := hmem m hm
  obtain ⟨-, hcnt, -, hne2⟩ := normalizeMessage_some_inv raw m hraw
  refine ⟨?_, ?_, ?_⟩
  · rw [hcnt]; exact hne2
  · rw [hcnt, jsTrim_idem]
  · rw [hcnt, jsTrim_idem]; exact hne2

/-- Witness for C2: the demo archive's conversation has messages. -/
theorem claim_C2_witness : convDemo2.messages ≠ [] :=
  (claim_C2 "T" (some bufDemo2) resDemo2 rfl convDemo2 (by simp [resDemo2])).1

/-- C1: once a buffer opens as an archive, `parseChatGPTZip` returns a
result; that result's conversations are the independent per-entry outcomes
(so one entry's failure cannot affect another's); a structured-document
entry whose decode/parse throws contributes nothing; and the concrete
one-corrupt-plus-one-valid archive yields exactly one conversation and no
error. -/
theorem claim_C1 (now : String) (buf : Buffer) (files : List ZipEntry)
    (hlen : buf.length ≠ 0) (hload : buf.loadAsync = Except.ok files) :
    parseChatGPTZip (some buf) now = Except.ok (collectResults files now) ∧
    (collectResults files now).conversations =
      (files.map (processEntry now)).filterMap EntryResult.convOf ∧
    (∀ f, f.textJson = none → isConversationEntryName f.name = true →
      processEntry now f = EntryResult.skip) ∧
    parseChatGPTZip (some mixedBufDemo) "T" =
      Except.ok ⟨[goodConvDemo], [], 2, 1, 0⟩ := by
  refine ⟨?_, rfl, ?_, rfl⟩
  · simp [parseChatGPTZip, hlen, hload]
  · intro f h1 h2
    by_cases hd : f.dir
    · simp [processEntry, hd]
    · simp [processEntry, hd, h2, processJsonEntry, h1]

/-- Witness for C1: the mixed archive parses successfully to the aggregated
per-entry results. -/
theorem claim_C1_witness :
    parseChatGPTZip (some mixedBufDemo) "T" =
      Except.ok (collectResults [badEntryDemo, goodEntryDemo] "T") :=
  (claim_C1 "T" mixedBufDemo [badEntryDemo, goodEntryDemo] (by decide) rfl).1

end ChatGPTZip
